import Mathlib

/-!
Verification development for the WT901 live vibration monitor
(shallow embedding of src/wt901_live_graph_v2.py).

Conventions of the embedding:
* Python byte strings become `List ℕ` (each entry one byte value).
* Python floats become `ℚ`; the decimal literals of the source are exact
  binary floats or are compared only through wide tolerances, so exact
  rational arithmetic is a faithful model of every comparison performed.
* `np.sqrt` is irrational-valued, so decoded samples carry the squared
  magnitude `x^2 + y^2 + z^2`; statements about the magnitude itself use
  `Real.sqrt` of that rational.
* The producer/consumer file channels (message file, status file, data
  file) are modelled by their contents: an optional pending message, the
  last written status record, and the shared sample log list.
-/

namespace Vib

/-! ## Frame parsing: BLEHandler.parse_wt901_data (lines 162-186)

`struct.unpack('<h', data[k:k+2])` reads a little-endian signed 16-bit
integer; the result is scaled by `/ 32768.0 * 16`. -/

/-- Little-endian signed 16-bit decode of two byte values, as Python
`struct.unpack` with format `<h` computes it. -/
def toInt16 (lo hi : ℕ) : ℤ :=
  let u : ℤ := (lo : ℤ) + 256 * (hi : ℤ)
  if u < 32768 then u else u - 65536

/-- The acceleration scaling applied to each decoded axis field:
`value / 32768.0 * 16` (in g). -/
def accScale (lo hi : ℕ) : ℚ :=
  (toInt16 lo hi : ℚ) / 32768 * 16

/-- BLEHandler.parse_wt901_data: accepts an 11-byte 0x55 0x51 frame or a
16-byte 0x55 0x61 frame and returns the three scaled axis values read at
byte offsets 2, 4, 6; any other input returns none. -/
def parseWT901 (data : List ℕ) : Option (ℚ × ℚ × ℚ) :=
  if 11 ≤ data.length ∧ data.getD 0 0 = 0x55 ∧ data.getD 1 0 = 0x51 then
    some (accScale (data.getD 2 0) (data.getD 3 0),
          accScale (data.getD 4 0) (data.getD 5 0),
          accScale (data.getD 6 0) (data.getD 7 0))
  else if 16 ≤ data.length ∧ data.getD 0 0 = 0x55 ∧ data.getD 1 0 = 0x61 then
    some (accScale (data.getD 2 0) (data.getD 3 0),
          accScale (data.getD 4 0) (data.getD 5 0),
          accScale (data.getD 6 0) (data.getD 7 0))
  else
    none

/-- Square of the total acceleration `np.sqrt(acc_x**2 + acc_y**2 + acc_z**2)`
computed at line 181; the code stores its square root. -/
def magnitudeSq (a : ℚ × ℚ × ℚ) : ℚ :=
  a.1 ^ 2 + a.2.1 ^ 2 + a.2.2 ^ 2

/-! ## Notification scan: BLEHandler.data_handler (lines 199-217)

The `while i < len(data)` loop advances `i` by 11 (complete 0x55 0x51
frame in bounds), by 16 (complete 0x55 0x61 frame in bounds), or by 1
(resynchronization).  Each iteration increases `i` by at least one, so
`data.length` iterations always suffice; the `fuel` argument makes that
bound explicit and the recursion structural.  The scan returns the frame
slices `data[i:i+11]` / `data[i:i+16]` cut out in order, together with
the final value of `i`; `dataHandler` then runs parse_wt901_data on each
slice and keeps the successful decodes, exactly as the loop body does
frame by frame. -/

/-- The frame-splitting loop of BLEHandler.data_handler, scanning from
index `i`: the frame slices found, and the final scan position. -/
def dataHandlerScan (data : List ℕ) : ℕ → ℕ → List (List ℕ) × ℕ
  | 0, i => ([], i)
  | fuel + 1, i =>
    if i < data.length then
      if i + 11 ≤ data.length ∧ data.getD i 0 = 0x55 ∧ data.getD (i + 1) 0 = 0x51 then
        let r := dataHandlerScan data fuel (i + 11)
        ((data.drop i).take 11 :: r.1, r.2)
      else if i + 16 ≤ data.length ∧ data.getD i 0 = 0x55 ∧ data.getD (i + 1) 0 = 0x61 then
        let r := dataHandlerScan data fuel (i + 16)
        ((data.drop i).take 16 :: r.1, r.2)
      else
        dataHandlerScan data fuel (i + 1)
    else ([], i)

/-- One call of BLEHandler.data_handler on a notification buffer: the
decoded samples, and the bytes left unscanned (never retained by the
source: the loop always runs to the end of the buffer). -/
def dataHandler (data : List ℕ) : List (ℚ × ℚ × ℚ) × List ℕ :=
  let r := dataHandlerScan data data.length 0
  (r.1.filterMap parseWT901, data.drop r.2)

/-- Position `j` of the buffer starts a complete, in-bounds frame of
either wire format (the two guard conditions of the scan loop). -/
abbrev frameHeaderAt (data : List ℕ) (j : ℕ) : Prop :=
  (j + 11 ≤ data.length ∧ data.getD j 0 = 0x55 ∧ data.getD (j + 1) 0 = 0x51) ∨
  (j + 16 ≤ data.length ∧ data.getD j 0 = 0x55 ∧ data.getD (j + 1) 0 = 0x61)

/-! ## Baselines and classifier

Constants from lines 38-39; the status panel computation from
LiveVibrationMonitor.update_lower_right (lines 961-963, 984-993) and the
CSV logger LiveVibrationMonitor.log_vibration_data (lines 676-686). -/

def IDLE_BASELINE : ℚ := 1.01

def CRUISE_BASELINE : ℚ := 1.03

/-- Line 961: the status panel baseline is the fixed constant 1.01. -/
def statusBaseline : ℚ := 1.01

/-- Line 962: `diff = current_mean - baseline`. -/
def statusDeviation (current_mean : ℚ) : ℚ :=
  current_mean - statusBaseline

/-- Line 685: the logger baseline is the fixed constant 1.01. -/
def logBaseline : ℚ := 1.01

/-- Line 686: `deviation = mean_acc - baseline`. -/
def logDeviation (mean_acc : ℚ) : ℚ :=
  mean_acc - logBaseline

/-- The three severity levels of the status panel / logger. -/
inductive AlertLevel where
  | normal
  | caution
  | warning
deriving DecidableEq

/-- Alert logic of update_lower_right (lines 984-993): strictly above
1.23 is the red alert, else strictly above 1.03 is the orange alert,
else no alert. -/
def alertLevel (current_mean : ℚ) : AlertLevel :=
  if 1.23 < current_mean then .warning
  else if 1.03 < current_mean then .caution
  else .normal

/-- Status string of log_vibration_data (lines 677-682). -/
def logStatus (mean_acc : ℚ) : String :=
  if 1.23 < mean_acc then "WARNING"
  else if 1.03 < mean_acc then "ATTENTION"
  else "Normal"

/-! ## Exponential smoothing: LiveVibrationMonitor.update_plot

Lines 1164-1177 smooth the rolling-mean series and lines 1204-1215 smooth
the rolling-std series with the identical recurrence: the first output is
the first raw value, and each later output is
`alpha * raw + (1 - alpha) * previous output`.  `emaSmooth` is that
recurrence applied to a raw series. -/

/-- Tail of the EMA loop: `prev` is the smoothed value already emitted. -/
def emaGo (alpha prev : ℚ) : List ℚ → List ℚ
  | [] => []
  | x :: xs =>
    let e := alpha * x + (1 - alpha) * prev
    e :: emaGo alpha e xs

/-- The EMA-smoothed series published for charting (same recurrence at
lines 1164-1177 for means and 1204-1215 for standard deviations). -/
def emaSmooth (alpha : ℚ) : List ℚ → List ℚ
  | [] => []
  | x :: xs => x :: emaGo alpha x xs

/-! ## Bounded stores

The monitor keeps `deque(maxlen=1000)` histories (lines 339-341); the
bridge keeps the shared sample log trimmed to its last 1000 entries
(FileMessenger.save_data_batch, lines 106-135). -/

/-- The last `n` elements of a list, in order. -/
def lastN (n : ℕ) (l : List α) : List α :=
  l.drop (l.length - n)

/-- `deque(maxlen=n).append`: when the deque is full the oldest element
is discarded as the new one is appended. -/
def dequeAppend (maxlen : ℕ) (buf : List α) (x : α) : List α :=
  let b := buf ++ [x]
  if maxlen < b.length then b.drop (b.length - maxlen) else b

/-- FileMessenger.save_data_batch: extend the shared log with the batch,
then keep only the last 1000 entries (lines 123-128). -/
def saveDataBatch (existing batch : List α) : List α :=
  let d := existing ++ batch
  if 1000 < d.length then d.drop (d.length - 1000) else d

/-! ## Single-slot message channel

FileMessenger.send_message (lines 58-70) overwrites the message file with
one message record; FileMessenger.get_message (lines 72-84) returns the
file content and deletes the file, or returns none when no file exists.
The channel state is the optional pending message. -/

/-- The message record written by send_message: timestamp, type, data. -/
structure WireMessage (α : Type) where
  timestamp : String
  msgType : String
  data : α
deriving DecidableEq

/-- send_message: overwrite the single slot with the new message. -/
def sendMessage (m : WireMessage α) (_slot : Option (WireMessage α)) :
    Option (WireMessage α) :=
  some m

/-- get_message: return the pending message (if any) and clear the slot.
First component: the returned message; second: the slot afterwards. -/
def getMessage (slot : Option (WireMessage α)) :
    Option (WireMessage α) × Option (WireMessage α) :=
  (slot, none)

/-! ## Status records

JSON-like records as association lists of field name / value pairs. -/

/-- JSON values appearing in the status records. -/
inductive JValue where
  | null
  | bool (b : Bool)
  | str (s : String)
deriving DecidableEq

/-- Field names of a record. -/
def recordKeys (r : List (String × JValue)) : List String :=
  r.map Prod.fst

/-- The default status returned by FileMessenger.get_status when no
status file exists (line 104). -/
def defaultStatus : List (String × JValue) :=
  [("connected", .bool false), ("device_name", .null), ("device_mac", .null)]

/-- The status written on successful connection
(BLEHandler.connect_to_device, lines 256-261). -/
def connectedStatus (name mac time : String) : List (String × JValue) :=
  [("connected", .bool true), ("device_name", .str name),
   ("device_mac", .str mac), ("connection_time", .str time)]

/-- The status written when the connection attempt fails
(BLEHandler.connect_to_device, lines 288-293). -/
def connectionFailedStatus (err : String) : List (String × JValue) :=
  [("connected", .bool false), ("device_name", .null),
   ("device_mac", .null), ("error", .str err)]

/-- The status written on disconnect (BLEHandler.disconnect,
lines 301-305). -/
def disconnectedStatus : List (String × JValue) :=
  [("connected", .bool false), ("device_name", .null), ("device_mac", .null)]

/-! ## Producer-side batching: BLEHandler.process_acceleration_data
(lines 219-244, with the fields initialized at lines 152-160)

Each decoded sample is appended to `data_batch`; once the batch holds
`batch_size = 50` samples it is handed to the messenger
(`save_data_batch`) and the local batch is reset.  `savedBatches` records
the successive batches handed over. -/

/-- The producer state relevant to batching. -/
structure BLEState (α : Type) where
  dataBatch : List α
  packetCount : ℕ
  savedBatches : List (List α)
deriving DecidableEq

/-- Initial producer state (lines 158-160). -/
def initBLE (α : Type) : BLEState α :=
  { dataBatch := [], packetCount := 0, savedBatches := [] }

/-- BLEHandler.process_acceleration_data on one sample. -/
def processAccelerationData (st : BLEState α) (p : α) : BLEState α :=
  let batch := st.dataBatch ++ [p]
  let count := st.packetCount + 1
  if 50 ≤ batch.length then
    { dataBatch := [], packetCount := count,
      savedBatches := st.savedBatches ++ [batch] }
  else
    { dataBatch := batch, packetCount := count,
      savedBatches := st.savedBatches }

/-! ## Scan loop lemmas -/

/-- The scan pointer always finishes at the end of the buffer: the loop
never stops early, whatever the buffer contents. -/
lemma dataHandlerScan_final (data : List ℕ) :
    ∀ fuel i, i ≤ data.length → data.length - i ≤ fuel →
      (dataHandlerScan data fuel i).2 = data.length := by
  intro fuel
  induction fuel with
  | zero =>
    intro i h1 h2
    have : i = data.length := by omega
    simp [dataHandlerScan, this]
  | succ n ih =>
    intro i h1 h2
    simp only [dataHandlerScan]
    split_ifs with h hf1 hf2
    · exact ih (i + 11) (by omega) (by omega)
    · exact ih (i + 16) (by omega) (by omega)
    · exact ih (i + 1) (by omega) (by omega)
    · omega

/-- If no position of the buffer starts a complete in-bounds frame, the
scan cuts out no frame slice. -/
lemma dataHandlerScan_no_frames (data : List ℕ)
    (hnf : ∀ j, j < data.length → ¬ frameHeaderAt data j) :
    ∀ fuel i, (dataHandlerScan data fuel i).1 = [] := by
  intro fuel
  induction fuel with
  | zero => intro i; rfl
  | succ n ih =>
    intro i
    simp only [dataHandlerScan]
    split_ifs with h hf1 hf2
    · exact absurd (Or.inl hf1) (hnf i h)
    · exact absurd (Or.inr hf2) (hnf i h)
    · exact ih (i + 1)
    · rfl

/-! ## Claims about the frame decoder -/

/-- Claim C1, amended.  The source decoder retains nothing between calls:
the scan loop always runs to the very end of the buffer, so the
unconsumed leftover reported is the empty byte string for every input;
and on a buffer with no complete in-bounds frame (in particular a buffer
whose trailing bytes begin a valid header with fewer bytes than the
declared frame length) it emits zero samples.  The trailing bytes of a
truncated frame are thus discarded byte by byte, not reported as leftover
for the next call. -/
theorem c1_truncated_frame_discarded :
    (∀ data : List ℕ, (dataHandler data).2 = []) ∧
    (∀ data : List ℕ, (∀ j, j < data.length → ¬ frameHeaderAt data j) →
      dataHandler data = ([], [])) := by
  constructor
  · intro data
    have h := dataHandlerScan_final data data.length 0 (Nat.zero_le _) (by omega)
    simp [dataHandler, h]
  · intro data hnf
    have h1 := dataHandlerScan_final data data.length 0 (Nat.zero_le _) (by omega)
    have h2 := dataHandlerScan_no_frames data hnf data.length 0
    simp [dataHandler, h1, h2]

/-- Witness for C1 at the truncated buffer 0x55 0x61 0x00 0x00 0x00. -/
theorem c1_witness :
    dataHandler [0x55, 0x61, 0, 0, 0] = ([], []) :=
  c1_truncated_frame_discarded.2 [0x55, 0x61, 0, 0, 0] (by decide)

/-- Counterexample to claim C1 as stated: on the buffer
0x55 0x61 0x00 0x00 0x00 (a valid header with fewer than 16 bytes and
no other in-bounds header match) the decoder emits zero samples, but the
unconsumed leftover it reports is empty, not those five trailing bytes. -/
theorem c1_counterexample :
    (dataHandler [0x55, 0x61, 0, 0, 0]).1 = [] ∧
    (dataHandler [0x55, 0x61, 0, 0, 0]).2 ≠ [0x55, 0x61, 0, 0, 0] := by
  constructor
  · decide
  · decide

/-- Claim C2: the two general decode equations (every decoded axis value
is the little-endian signed 16-bit field at offsets 2, 4, 6 scaled by
1/32768*16, for both the 11-byte 0x55 0x51 format and the 16-byte
0x55 0x61 format), and the concrete 11-byte frame carrying the triple
(100, -200, 16384): its decode is (25/512, -25/256, 8), each component
within 1e-4 of (0.0488, -0.0977, 8.0), and the magnitude within 1e-4 of
8.0007. -/
theorem c2_frame_decode :
    (∀ b2 b3 b4 b5 b6 b7 b8 b9 b10 : ℕ,
      parseWT901 [0x55, 0x51, b2, b3, b4, b5, b6, b7, b8, b9, b10] =
        some (accScale b2 b3, accScale b4 b5, accScale b6 b7)) ∧
    (∀ b2 b3 b4 b5 b6 b7 b8 b9 b10 b11 b12 b13 b14 b15 : ℕ,
      parseWT901 [0x55, 0x61, b2, b3, b4, b5, b6, b7,
                  b8, b9, b10, b11, b12, b13, b14, b15] =
        some (accScale b2 b3, accScale b4 b5, accScale b6 b7)) ∧
    parseWT901 [0x55, 0x51, 100, 0, 56, 255, 0, 64, 0, 0, 0] =
      some (25 / 512, -(25 / 256), 8) ∧
    |(25 / 512 : ℚ) - 0.0488| ≤ 0.0001 ∧
    |(-(25 / 256) : ℚ) - (-0.0977)| ≤ 0.0001 ∧
    |(8 : ℚ) - 8| ≤ 0.0001 ∧
    |Real.sqrt ((magnitudeSq (25 / 512, -(25 / 256), 8) : ℚ) : ℝ) - 8.0007| ≤
      0.0001 := by
  refine ⟨?_, ?_, ?_, ?_, ?_, ?_, ?_⟩
  · intro b2 b3 b4 b5 b6 b7 b8 b9 b10
    simp [parseWT901]
  · intro b2 b3 b4 b5 b6 b7 b8 b9 b10 b11 b12 b13 b14 b15
    simp [parseWT901]
  · norm_num [parseWT901, accScale, toInt16]
  · rw [abs_le]; constructor <;> norm_num
  · rw [abs_le]; constructor <;> norm_num
  · norm_num
  · have hq : ((magnitudeSq (25 / 512, -(25 / 256), 8) : ℚ) : ℝ) =
        16780341 / 262144 := by
      norm_num [magnitudeSq]
    rw [hq]
    have h1 : (8.0006 : ℝ) ≤ Real.sqrt (16780341 / 262144) := by
      rw [show (8.0006 : ℝ) = Real.sqrt (8.0006 ^ 2) from
        (Real.sqrt_sq (by norm_num)).symm]
      exact Real.sqrt_le_sqrt (by norm_num)
    have h2 : Real.sqrt (16780341 / 262144) ≤ (8.0008 : ℝ) := by
      rw [show (8.0008 : ℝ) = Real.sqrt (8.0008 ^ 2) from
        (Real.sqrt_sq (by norm_num)).symm]
      exact Real.sqrt_le_sqrt (by norm_num)
    rw [abs_le]
    constructor <;> linarith

/-- Claim C3: the buffer 0x00 0x00 0x55 0x51 followed by nine zero bytes
(13 bytes in all) decodes to exactly one sample, the decode of the
11-byte frame starting at offset 2; the two leading bytes are discarded
(nothing is retained as leftover). -/
theorem c3_resynchronization :
    (dataHandlerScan [0, 0, 0x55, 0x51, 0, 0, 0, 0, 0, 0, 0, 0, 0] 13 0).1 =
      [([0, 0, 0x55, 0x51, 0, 0, 0, 0, 0, 0, 0, 0, 0].drop 2).take 11] ∧
    dataHandler [0, 0, 0x55, 0x51, 0, 0, 0, 0, 0, 0, 0, 0, 0] =
      ([(0, 0, 0)], []) := by
  constructor
  · decide
  · have h : dataHandlerScan [0, 0, 0x55, 0x51, 0, 0, 0, 0, 0, 0, 0, 0, 0]
        ([0, 0, 0x55, 0x51, 0, 0, 0, 0, 0, 0, 0, 0, 0] : List ℕ).length 0 =
        ([[0x55, 0x51, 0, 0, 0, 0, 0, 0, 0, 0, 0]], 13) := by decide
    simp only [dataHandler, h]
    norm_num [List.filterMap_cons, List.filterMap_nil, parseWT901, accScale, toInt16]

/-! ## Claims about the baseline classifier -/

/-- Counterexample to claim C4 as stated: at current mean 1.06 (which is
not below idle + 0.05, and is at least 1.06) the claim demands the cruise
baseline 1.03 and deviation 1.06 - 1.03 = 0.03, but both the status panel
and the CSV logger use the fixed idle baseline 1.01 and report deviation
0.05. -/
theorem c4_counterexample :
    statusBaseline ≠ CRUISE_BASELINE ∧
    statusDeviation 1.06 ≠ (1.06 : ℚ) - CRUISE_BASELINE ∧
    statusDeviation 1.06 = 0.05 ∧
    logDeviation 1.06 ≠ (1.06 : ℚ) - CRUISE_BASELINE := by
  refine ⟨?_, ?_, ?_, ?_⟩ <;>
    norm_num [statusBaseline, statusDeviation, logBaseline, logDeviation,
      CRUISE_BASELINE]

/-- Claim C4, amended.  The v2 monitor never selects the cruise baseline:
both the status panel (lines 961-963) and the CSV logger (lines 684-686)
always use the idle baseline 1.01, for every current mean, and report
deviation m - 1.01; in particular m = 1.00 yields the idle baseline and
deviation -0.01, and for every m (so also every m at least 1.06) the
reported deviation is m - 1.01, not m - 1.03. -/
theorem c4_baseline_always_idle :
    (∀ m : ℚ, statusDeviation m = m - IDLE_BASELINE) ∧
    (∀ m : ℚ, logDeviation m = m - IDLE_BASELINE) ∧
    statusBaseline = IDLE_BASELINE ∧
    logBaseline = IDLE_BASELINE ∧
    statusDeviation 1 = -0.01 := by
  refine ⟨?_, ?_, ?_, ?_, ?_⟩ <;>
    norm_num [statusBaseline, statusDeviation, logBaseline, logDeviation,
      IDLE_BASELINE]

/-- Claim C5: the alert level is Warning exactly when the current mean is
strictly above 1.23, Caution exactly when it is strictly above 1.03 and
at most 1.23, and Normal exactly when it is at most 1.03 — for the status
panel alert and for the logger status string alike; the boundary cases
1.03 (Normal) and 1.2301 (Warning) evaluate as claimed. -/
theorem c5_alert_thresholds :
    (∀ m : ℚ,
      (alertLevel m = AlertLevel.warning ↔ 1.23 < m) ∧
      (alertLevel m = AlertLevel.caution ↔ 1.03 < m ∧ m ≤ 1.23) ∧
      (alertLevel m = AlertLevel.normal ↔ m ≤ 1.03) ∧
      (logStatus m = "WARNING" ↔ 1.23 < m) ∧
      (logStatus m = "ATTENTION" ↔ 1.03 < m ∧ m ≤ 1.23) ∧
      (logStatus m = "Normal" ↔ m ≤ 1.03)) ∧
    alertLevel 1.03 = AlertLevel.normal ∧
    alertLevel 1.2301 = AlertLevel.warning := by
  refine ⟨?_, ?_, ?_⟩
  · intro m
    unfold alertLevel logStatus
    split_ifs with h1 h2 <;>
      refine ⟨?_, ?_, ?_, ?_, ?_, ?_⟩ <;>
        simp_all <;> linarith
  · norm_num [alertLevel]
  · norm_num [alertLevel]

/-! ## Claim about exponential smoothing -/

lemma emaGo_const (alpha v : ℚ) :
    ∀ n, emaGo alpha v (List.replicate n v) = List.replicate n v := by
  intro n
  induction n with
  | zero => rfl
  | succ k ih =>
    have hv : alpha * v + (1 - alpha) * v = v := by ring
    simp only [List.replicate_succ, emaGo, hv, ih]

/-- Claim C6: if every raw value of a series equals v, the EMA-smoothed
series the monitor publishes is constant at v at every index; this covers
both the smoothed rolling-mean series and the smoothed rolling-std
series, which use the identical recurrence. -/
theorem c6_ema_constant_input (alpha v : ℚ) (xs : List ℚ)
    (h : ∀ x ∈ xs, x = v) :
    emaSmooth alpha xs = List.replicate xs.length v := by
  have hxs : xs = List.replicate xs.length v :=
    List.eq_replicate_iff.mpr ⟨rfl, h⟩
  have hrep : ∀ n, emaSmooth alpha (List.replicate n v) = List.replicate n v := by
    intro n
    cases n with
    | zero => rfl
    | succ k => simp only [List.replicate_succ, emaSmooth, emaGo_const]
  calc emaSmooth alpha xs
      = emaSmooth alpha (List.replicate xs.length v) := by rw [← hxs]
    _ = List.replicate xs.length v := hrep _

/-- Witness for C6 with the source smoothing factor 0.2 and the constant
series 1.05, 1.05, 1.05. -/
theorem c6_witness :
    emaSmooth 0.2 [1.05, 1.05, 1.05] = List.replicate 3 1.05 :=
  c6_ema_constant_input 0.2 1.05 [1.05, 1.05, 1.05] (by simp)

/-! ## Claims about the bounded stores -/

lemma lastN_length_le (n : ℕ) (l : List α) : (lastN n l).length ≤ n := by
  simp only [lastN, List.length_drop]
  omega

lemma lastN_of_le {n : ℕ} {l : List α} (h : l.length ≤ n) : lastN n l = l := by
  simp only [lastN, Nat.sub_eq_zero_of_le h, List.drop_zero]

lemma lastN_append_right (n : ℕ) (u v : List α) (h : n ≤ v.length) :
    lastN n (u ++ v) = lastN n v := by
  unfold lastN
  rw [List.length_append, List.drop_append_eq_append_drop,
    List.drop_eq_nil_of_le (by omega)]
  simp only [List.nil_append]
  congr 1
  omega

lemma lastN_lastN_append (n : ℕ) (l m : List α) :
    lastN n (lastN n l ++ m) = lastN n (l ++ m) := by
  by_cases h : l.length ≤ n
  · rw [lastN_of_le h]
  · have hlen : (lastN n l).length = n := by
      simp only [lastN, List.length_drop]
      omega
    have hdec : List.take (l.length - n) l ++ lastN n l = l := by
      have hd : lastN n l = List.drop (l.length - n) l := rfl
      rw [hd, List.take_append_drop]
    calc lastN n (lastN n l ++ m)
        = lastN n (List.take (l.length - n) l ++ (lastN n l ++ m)) :=
          (lastN_append_right n _ _ (by rw [List.length_append, hlen]; omega)).symm
      _ = lastN n (l ++ m) := by rw [← List.append_assoc, hdec]

lemma dequeAppend_eq_lastN (N : ℕ) (b : List α) (x : α) :
    dequeAppend N b x = lastN N (b ++ [x]) := by
  simp only [dequeAppend, lastN]
  split_ifs with h
  · rfl
  · rw [Nat.sub_eq_zero_of_le (by omega), List.drop_zero]

lemma saveDataBatch_eq_lastN (log batch : List α) :
    saveDataBatch log batch = lastN 1000 (log ++ batch) := by
  simp only [saveDataBatch, lastN]
  split_ifs with h
  · rfl
  · rw [Nat.sub_eq_zero_of_le (by omega), List.drop_zero]

lemma foldl_dequeAppend (N : ℕ) :
    ∀ (xs b : List α), b.length ≤ N →
      xs.foldl (dequeAppend N) b = lastN N (b ++ xs) := by
  intro xs
  induction xs with
  | nil =>
    intro b h
    rw [List.foldl_nil, List.append_nil, lastN_of_le h]
  | cons x xs ih =>
    intro b h
    rw [List.foldl_cons,
      ih (dequeAppend N b x) (by rw [dequeAppend_eq_lastN]; exact lastN_length_le _ _),
      dequeAppend_eq_lastN, lastN_lastN_append, List.append_assoc,
      List.singleton_append]

/-- Claim C7: the deque histories (maxlen 1000) never exceed 1000
elements under any push sequence; pushing 1005 samples into an empty one
leaves exactly the last 1000 in push order; and the shared sample log
written by save_data_batch obeys the same capped truncate-from-front
behavior. -/
theorem c7_ring_buffer_capacity :
    (∀ (α : Type) (xs : List α),
      (xs.foldl (dequeAppend 1000) []).length ≤ 1000) ∧
    (∀ (α : Type) (xs : List α), xs.length = 1005 →
      xs.foldl (dequeAppend 1000) [] = xs.drop 5) ∧
    (∀ (α : Type) (log batch : List α),
      (saveDataBatch log batch).length ≤ 1000 ∧
      (log.length + batch.length = 1005 →
        saveDataBatch log batch = (log ++ batch).drop 5)) := by
  refine ⟨?_, ?_, ?_⟩
  · intro α xs
    rw [foldl_dequeAppend 1000 xs [] (by simp)]
    exact lastN_length_le _ _
  · intro α xs h
    rw [foldl_dequeAppend 1000 xs [] (by simp), List.nil_append]
    unfold lastN
    rw [h]
  · intro α log batch
    refine ⟨?_, ?_⟩
    · rw [saveDataBatch_eq_lastN]
      exact lastN_length_le _ _
    · intro h
      rw [saveDataBatch_eq_lastN]
      unfold lastN
      rw [List.length_append, h]

/-- Witness for C7: 1005 pushes into an empty deque keep the last 1000,
and a save_data_batch call reaching 1005 entries trims to the last
1000. -/
theorem c7_witness :
    (List.range 1005).foldl (dequeAppend 1000) [] = (List.range 1005).drop 5 ∧
    saveDataBatch (List.range 1000) (List.range 5) =
      (List.range 1000 ++ List.range 5).drop 5 :=
  ⟨c7_ring_buffer_capacity.2.1 ℕ (List.range 1005) (by simp),
   (c7_ring_buffer_capacity.2.2 ℕ (List.range 1000) (List.range 5)).2 (by simp)⟩

/-! ## Claim about the message channel -/

/-- Claim C8: the message channel is a single-slot mailbox: a second
send before any read overwrites the first message, the read returns the
latest message, and reads are destructive — after a read, a further read
with no intervening send returns nothing. -/
theorem c8_single_slot_mailbox :
    ∀ (α : Type) (slot : Option (WireMessage α)) (e1 e2 : WireMessage α),
      (getMessage (sendMessage e2 (sendMessage e1 slot))).1 = some e2 ∧
      (getMessage ((getMessage (sendMessage e2 (sendMessage e1 slot))).2)).1 =
        none ∧
      (getMessage ((getMessage slot).2)).1 = none := by
  intro α slot e1 e2
  exact ⟨rfl, rfl, rfl⟩

/-! ## Claims about the status records -/

/-- Counterexample to claim C9 as stated: the default status returned by
get_status carries no packet_count field (and no device_address field —
the address lives under the key device_mac). -/
theorem c9_counterexample :
    "packet_count" ∉ recordKeys defaultStatus ∧
    "device_address" ∉ recordKeys defaultStatus := by
  decide

/-- Claim C9, amended.  Every status snapshot on the bridge — the
default from get_status and the three records written by the producer —
contains the fields connected, device_name and device_mac (the address
field is named device_mac, not device_address); none of them contains a
packet_count field: packet counts are conveyed through data_update
messages instead. -/
theorem c9_status_fields :
    ∀ name mac time err : String,
      ("connected" ∈ recordKeys defaultStatus ∧
        "device_name" ∈ recordKeys defaultStatus ∧
        "device_mac" ∈ recordKeys defaultStatus ∧
        "packet_count" ∉ recordKeys defaultStatus) ∧
      ("connected" ∈ recordKeys (connectedStatus name mac time) ∧
        "device_name" ∈ recordKeys (connectedStatus name mac time) ∧
        "device_mac" ∈ recordKeys (connectedStatus name mac time) ∧
        "packet_count" ∉ recordKeys (connectedStatus name mac time)) ∧
      ("connected" ∈ recordKeys (connectionFailedStatus err) ∧
        "device_name" ∈ recordKeys (connectionFailedStatus err) ∧
        "device_mac" ∈ recordKeys (connectionFailedStatus err) ∧
        "packet_count" ∉ recordKeys (connectionFailedStatus err)) ∧
      ("connected" ∈ recordKeys disconnectedStatus ∧
        "device_name" ∈ recordKeys disconnectedStatus ∧
        "device_mac" ∈ recordKeys disconnectedStatus ∧
        "packet_count" ∉ recordKeys disconnectedStatus) := by
  intro name mac time err
  refine ⟨?_, ?_, ?_, ?_⟩ <;>
    simp [recordKeys, defaultStatus, connectedStatus, connectionFailedStatus,
      disconnectedStatus]

/-! ## Claim about producer-side batching -/

lemma processAcceleration_foldl (α : Type) :
    ∀ (ps : List α) (st : BLEState α), st.dataBatch.length ≤ 49 →
      ((ps.foldl processAccelerationData st).dataBatch.length ≤ 49) ∧
      (((ps.foldl processAccelerationData st).savedBatches.all
          fun b => b.length == 50) =
        (st.savedBatches.all fun b => b.length == 50)) ∧
      ((ps.foldl processAccelerationData st).savedBatches.flatten ++
          (ps.foldl processAccelerationData st).dataBatch =
        st.savedBatches.flatten ++ st.dataBatch ++ ps) := by
  intro ps
  induction ps with
  | nil =>
    intro st h
    refine ⟨h, rfl, by simp⟩
  | cons p ps ih =>
    intro st h
    rw [List.foldl_cons]
    by_cases hb : 50 ≤ (st.dataBatch ++ [p]).length
    · have hlen : (st.dataBatch ++ [p]).length = 50 := by
        simp only [List.length_append, List.length_cons, List.length_nil] at hb ⊢
        omega
      have hst : processAccelerationData st p =
          ⟨[], st.packetCount + 1, st.savedBatches ++ [st.dataBatch ++ [p]]⟩ := by
        simp only [processAccelerationData]
        rw [if_pos hb]
      obtain ⟨ih1, ih2, ih3⟩ :=
        ih (processAccelerationData st p) (by rw [hst]; simp)
      refine ⟨ih1, ?_, ?_⟩
      · rw [ih2, hst]
        simp [List.all_append, hlen]
      · rw [ih3, hst]
        simp [List.flatten_append, List.append_assoc]
    · have hst : processAccelerationData st p =
          ⟨st.dataBatch ++ [p], st.packetCount + 1, st.savedBatches⟩ := by
        simp only [processAccelerationData]
        rw [if_neg hb]
      obtain ⟨ih1, ih2, ih3⟩ := ih (processAccelerationData st p)
        (by
          rw [hst]
          simp only [List.length_append, List.length_cons, List.length_nil] at hb ⊢
          omega)
      refine ⟨ih1, by rw [ih2, hst], ?_⟩
      · rw [ih3, hst]
        simp [List.append_assoc]

/-- Claim C10: starting from the initial producer state, after any
sequence of decoded samples at most 49 samples remain pending in the
local batch, every batch handed to the messenger holds exactly 50
samples, and the delivered batches followed by the pending partial batch
reconstruct the processed samples in order — so a sample becomes visible
only as part of a full batch of 50, and a partial batch is never
delivered. -/
theorem c10_batch_publication :
    ∀ (α : Type) (ps : List α),
      ((ps.foldl processAccelerationData (initBLE α)).dataBatch.length ≤ 49) ∧
      (((ps.foldl processAccelerationData (initBLE α)).savedBatches.all
          fun b => b.length == 50) = true) ∧
      ((ps.foldl processAccelerationData (initBLE α)).savedBatches.flatten ++
          (ps.foldl processAccelerationData (initBLE α)).dataBatch = ps) := by
  intro α ps
  obtain ⟨h1, h2, h3⟩ :=
    processAcceleration_foldl α ps (initBLE α) (by simp [initBLE])
  refine ⟨h1, ?_, ?_⟩
  · rw [h2]
    simp [initBLE]
  · rw [h3]
    simp [initBLE]

end Vib
